import Mathlib

/-!
Verification of the MuLi filesystem core (mulifs): a shallow embedding of
the store functions (`GetPlaylistFilePath`, `ListPlaylistSongs`,
`CreatePlaylist`) and of the node/handle layer (`File.Attr`, `File.Open`,
`FileHandle.Flush`, `FileHandle.Release`), together with proofs and
refutations of the specified properties.

Modelling conventions:
- Go errors are the inductive `Err`; a Go `(T, error)` result is
  `Except Err T`.
- A Go runtime panic (out-of-range string index, nil-pointer dereference)
  is modelled by an outer `Option`: `none` means the operation panics.
- The bolt database is a bucket hierarchy of association lists; a key
  whose value is `none` marks a sub-bucket (bolt's `Get` returns nil
  there), `some bytes` marks a leaf record.
- External collaborators (the OS `stat`/`open`, `store.GetFilePath`,
  `store.HandleDrop`, the tag rewriter) are parameters of the embedded
  functions; event traces (`Ev`) record the order of their invocations.
-/

namespace MuLiFS

/-- Errors produced by the embedded code. `msg` is Go's `errors.New`,
the rest are the fuse error codes used by file.go. -/
inductive Err where
  | msg (s : String)
  | eio
  | eperm
  | enoent
  | osErr (s : String)
deriving DecidableEq, Repr

/-- Opaque serialized bytes stored as a playlist-song record.
`validRecord p` stands for JSON that `json.Unmarshal` decodes into a
`playlistmgr.PlaylistFile` with `Path = p`; `malformed raw` stands for
bytes on which `json.Unmarshal` fails. -/
inductive StoredBytes where
  | validRecord (path : String)
  | malformed (raw : String)
deriving DecidableEq, Repr

/-- Embedding of `json.Unmarshal(songJson, &file)` followed by reading
`file.Path`: succeeds exactly on well-formed record bytes. -/
def unmarshalPlaylistFile : StoredBytes → Option String
  | .validRecord p => some p
  | .malformed _ => none

/-- A playlist bucket: keys are song names; `none` values mark nested
sub-buckets (bolt `Get` yields nil on those), `some` values are records. -/
abbrev PlaylistBucket := List (String × Option StoredBytes)

/-- The bolt database state used by the store functions: the top-level
`Playlists` bucket (absent when `tx.Bucket("Playlists")` is nil) holding
one sub-bucket per playlist. -/
structure MuLiDB where
  playlistsRoot : Option (List (String × PlaylistBucket))
deriving DecidableEq, Repr

/-- First-match association-list lookup, the embedding of a bolt bucket
access by key. -/
def bucketLookup {α : Type} : List (String × α) → String → Option α
  | [], _ => none
  | (k, v) :: rest, key => if k = key then some v else bucketLookup rest key

/-- Embedding of `playlistBucket.Get([]byte(song))`: nil for an absent key
and for a sub-bucket key, the record bytes otherwise. -/
def bucketGet (pb : PlaylistBucket) (song : String) : Option StoredBytes :=
  match bucketLookup pb song with
  | some (some bytes) => some bytes
  | _ => none

/-- Result of a successful `os.Stat`: the only field the code consults. -/
structure FStat where
  isDir : Bool
deriving DecidableEq, Repr

/-- Embedding of the mount-point normalization
`if mPoint[len(mPoint)-1] != '/' { mPoint = mPoint + "/" }`.
Callers guard the empty string (where the Go index panics). -/
def normSlash (m : String) : String :=
  if m.data.getLast? = some '/' then m else m ++ "/"

/-- The body of the `db.View` closure of `GetPlaylistFilePath`
(part_000 lines 53-75): walk `Playlists` → playlist bucket → song key,
then unmarshal; each missing stage is its own error. -/
def playlistViewLookup (db : MuLiDB) (playlist song : String) :
    Except Err String :=
  match db.playlistsRoot with
  | none => .error (.msg "No playlists.")
  | some root =>
    match bucketLookup root playlist with
    | none => .error (.msg "Playlist not exists.")
    | some pb =>
      match bucketGet pb song with
      | none => .error (.msg "Song not found.")
      | some bytes =>
        match unmarshalPlaylistFile bytes with
        | none => .error (.msg "Cannot open song.")
        | some p => .ok p

/-- Embedding of `store.GetPlaylistFilePath` (part_000 lines 45-93).
`dbOpen` injects a `bolt.Open` failure; `stat` is the OS `os.Stat`
(`none` = stat error). The outer `Option` is `none` exactly when the Go
code panics (indexing `mPoint[len(mPoint)-1]` on an empty mount point,
reached only when the database lookup failed). -/
def GetPlaylistFilePath (playlist song mPoint : String) (dbOpen : Option Err)
    (db : MuLiDB) (stat : String → Option FStat) :
    Option (Except Err String) :=
  match dbOpen with
  | some e => some (.error e)
  | none =>
    match playlistViewLookup db playlist song with
    | .ok p => some (.ok p)
    | .error _ =>
      if mPoint = "" then none
      else
        let fullPath :=
          normSlash mPoint ++ "playlists/" ++ playlist ++ "/" ++ song
        match stat fullPath with
        | none => some (.error (.msg "File not exists."))
        | some s =>
          if s.isDir then some (.error (.msg "File not exists."))
          else some (.ok fullPath)

/-- Directory-entry type of the fuse `Dirent` values the listing
functions build (`fuse.DT_File` / `fuse.DT_Dir`). -/
inductive DType where
  | dtFile
  | dtDir
deriving DecidableEq, Repr

/-- Embedding of `fuse.Dirent`: the two fields the code sets. -/
structure Dirent where
  name : String
  typ : DType
deriving DecidableEq, Repr

/-- One entry returned by `ioutil.ReadDir`: its name and whether it is a
directory. -/
structure DiskEntry where
  name : String
  isDir : Bool
deriving DecidableEq, Repr

/-- Embedding of `store.ListPlaylistSongs` (part_000 lines 131-184).
`readDir` is `ioutil.ReadDir` on the fallback directory; its error is
discarded by the code (`files, _ :=`), so a failing ReadDir is modelled
as an empty listing. The `db.View` closure never returns an error (every
branch returns nil), so control always reaches the on-disk scan; the
outer `Option` is `none` exactly when indexing `mPoint[len(mPoint)-1]`
panics on an empty mount point. -/
def ListPlaylistSongs (playlist mPoint : String) (dbOpen : Option Err)
    (db : MuLiDB) (readDir : String → List DiskEntry) :
    Option (Except Err (List Dirent)) :=
  match dbOpen with
  | some e => some (.error e)
  | none =>
    let a : List Dirent :=
      match db.playlistsRoot with
      | none => []
      | some root =>
        match bucketLookup root playlist with
        | none => []
        | some pb =>
          (pb.filter (fun kv => kv.2.isSome)).map
            (fun kv => { name := kv.1, typ := .dtFile })
    if mPoint = "" then none
    else
      let fullPath := normSlash mPoint ++ "playlists/" ++ playlist ++ "/"
      let files := (readDir fullPath).filter (fun e => !e.isDir)
      some (.ok (a ++ files.map (fun e => { name := e.name, typ := .dtFile })))

/-- Modelled from the spec: `getCompatibleString` is called by
`CreatePlaylist` but its definition is not among the given sources. The
spec says playlist names are "normalized to a filesystem-safe form", with
the example "My Mix " ↦ "My_Mix": leading and trailing spaces are
dropped and every remaining character that is not a letter, a digit, an
underscore or a hyphen is replaced by an underscore. -/
def getCompatibleString (s : String) : String :=
  let keep := fun c : Char => c.isAlphanum || c = '_' || c = '-'
  let trimmed := (s.data.dropWhile (· = ' ')).reverse.dropWhile (· = ' ')
  String.mk ((trimmed.reverse).map (fun c => if keep c then c else '_'))

/-- Embedding of bolt's `CreateBucketIfNotExists` inside the `Playlists`
root: a no-op when the named sub-bucket already exists. -/
def createBucketIfNotExists (root : List (String × PlaylistBucket))
    (name : String) : List (String × PlaylistBucket) :=
  if (bucketLookup root name).isSome then root else root ++ [(name, [])]

/-- Embedding of `store.CreatePlaylist` (part_000 lines 190-219).
`dbOpen` injects a `bolt.Open` failure and `txFail` an error from the
`db.Update` transaction (a failing `CreateBucketIfNotExists`, which
aborts the transaction with no partial write). The returned `Bool`
records whether `playlistmgr.RegeneratePlaylistFile` was invoked; the
code reaches it only after the transaction committed. -/
def CreatePlaylist (name mPoint : String) (dbOpen : Option Err)
    (txFail : Option Err) (db : MuLiDB) :
    MuLiDB × Except Err String × Bool :=
  let n := getCompatibleString name
  match dbOpen with
  | some e => (db, .error e, false)
  | none =>
    match txFail with
    | some e => (db, .error e, false)
    | none =>
      let root := db.playlistsRoot.getD []
      let root' := createBucketIfNotExists root n
      ({ playlistsRoot := some root' }, .ok n, true)

/-- Embedding of the `File` node (file.go lines 39-50). `writers` is the
Go `uint` writer count and `data` the special-file buffer; `data = none`
is the nil slice (buffer discarded). The mutex only serializes access
and has no sequential content. -/
structure File where
  artist : String
  album : String
  song : String
  name : String
  mPoint : String
  writers : Nat
  data : Option (List Nat)
deriving DecidableEq, Repr

/-- Embedding of `FileHandle` (file.go lines 143-146): whether a real
descriptor `r` is held (`r == nil` ↦ `false`), and the back pointer to
the node (`none` = nil pointer). -/
structure FileHandle where
  r : Bool
  f : Option File
deriving DecidableEq, Repr

/-- Events recording the order of the handle layer's calls into its
collaborators: closing/syncing the real descriptor, `store.HandleDrop`,
`store.GetFilePath` and `tools.SetMp3Tags`. -/
inductive Ev where
  | closeFd
  | syncFd
  | handleDrop (path : String)
  | getFilePath (artist album name : String)
  | setMp3Tags (artist album song path : String)
deriving DecidableEq, Repr

/-- The special-file name test of Release (file.go line 159):
`len(name) > 1 && name[0] == '.' && (name[1] == '_' || name == ".DS_Store")`. -/
def isSpecialName (name : String) : Bool :=
  match name.data with
  | c0 :: c1 :: _ => c0 = '.' && (c1 = '_' || name = ".DS_Store")
  | _ => false

/-- Decrement of the Go 64-bit `uint` writer count `fh.f.writers--`,
wrapping at zero. -/
def decUint (w : Nat) : Nat :=
  if w = 0 then 2 ^ 64 - 1 else w - 1

/-- Embedding of `filepath.Ext`: the suffix starting at the final dot,
empty when the name has no dot (song names contain no path separator). -/
def extOf (name : String) : String :=
  if name.data.contains '.' then
    String.mk ('.' :: (name.data.reverse.takeWhile (· ≠ '.')).reverse)
  else ""

/-- Embedding of `FileHandle.Release` (file.go lines 152-226).
Parameters stand for the collaborators: `readOnly` is
`req.Flags.IsReadOnly()`, `closeRes` the result of `fh.r.Close()`,
`dropRes` of `store.HandleDrop`, `gfp` of `store.GetFilePath`. Returns
the updated node, the error result (`none` = success) and the ordered
trace of collaborator calls; the outer `Option` is `none` when the Go
code panics (nil node dereference, or the mount-point index on an empty
`mPoint` in the drop branch — note the descriptor is closed before that
panic). -/
def Release (fh : FileHandle) (readOnly : Bool) (closeRes : Option Err)
    (dropRes : String → Option Err)
    (gfp : String → String → String → Except Err String) :
    Option (Option File × Option Err × List Ev) :=
  if fh.r = false then
    match fh.f with
    | none => none
    | some f =>
      if f.name = ".description" then some (some f, none, [])
      else if isSpecialName f.name then
        if readOnly then some (some f, none, [])
        else
          let w := decUint f.writers
          let f' := { f with writers := w,
                             data := if w = 0 then none else f.data }
          some (some f', none, [])
      else some (some f, none, [])
  else
    match fh.f with
    | some f =>
      if f.artist = "drop" then
        if f.mPoint = "" then none
        else
          let path := normSlash f.mPoint ++ "drop/" ++ f.name
          match dropRes path with
          | some e => some (some f, some e, [.closeFd, .handleDrop path])
          | none => some (some f, closeRes, [.closeFd, .handleDrop path])
      else if f.artist = "" || f.album = "" then
        some (some f, closeRes, [.closeFd])
      else
        match gfp f.artist f.album f.name with
        | .error e =>
          some (some f, some e,
            [.closeFd, .getFilePath f.artist f.album f.name])
        | .ok songPath =>
          if f.artist = "playlist" then
            some (some f, closeRes,
              [.closeFd, .getFilePath f.artist f.album f.name])
          else if extOf f.name = ".mp3" then
            some (some f, closeRes,
              [.closeFd, .getFilePath f.artist f.album f.name,
               .setMp3Tags f.artist f.album f.song songPath])
          else
            some (some f, closeRes,
              [.closeFd, .getFilePath f.artist f.album f.name])
    | none => some (none, closeRes, [.closeFd])

/-- Embedding of `FileHandle.Flush` (file.go lines 295-309): with no
descriptor it returns `fuse.EIO` unconditionally; with a descriptor it
calls `fh.r.Sync()` — whose result is discarded — and returns success. -/
def Flush (fh : FileHandle) : Except Err Unit × List Ev :=
  if fh.r then (.ok (), [.syncFd]) else (.error .eio, [])

/-- Embedding of `File.Open` (file.go lines 105-141). `gfp` is
`store.GetFilePath`, `osOpen` is `os.Open` on the resolved path. The
outer `Option` is `none` when indexing `f.name[0]` panics: reached when
the name is empty, because the empty name fails the preceding
`.description` comparison. -/
def File.Open (f : File)
    (gfp : String → String → String → Except Err String)
    (osOpen : String → Except Err Unit) :
    Option (Except Err FileHandle) :=
  if f.name = ".description" then some (.ok { r := false, f := some f })
  else
    match f.name.data with
    | [] => none
    | c :: _ =>
      if c = '.' then some (.error .eperm)
      else
        match gfp f.artist f.album f.name with
        | .error e => some (.error e)
        | .ok songPath =>
          match osOpen songPath with
          | .error e => some (.error e)
          | .ok _ => some (.ok { r := true, f := some f })

/-- The attribute record filled by `File.Attr`: the size and mode bits
the code assigns. -/
structure AttrOut where
  size : Nat
  mode : Nat
deriving DecidableEq, Repr

/-- Embedding of `File.Attr` (file.go lines 52-101). Collaborators:
`getDescription` is `store.GetDescription`, `getSpecialFile` is
`store.GetSpecialFile`, `gfp` is `store.GetFilePath`, `osOpen` and
`osStat` are `os.Open` and `File.Stat` (the latter returning the size)
on the resolved path. The outer `Option` is `none` when `f.name[0]`
panics — here the index is the very first test, so every empty-named
node panics. -/
def File.Attr (f : File)
    (getDescription : String → String → String → Except Err String)
    (getSpecialFile : String → String → String → Except Err (List Nat))
    (gfp : String → String → String → Except Err String)
    (osOpen : String → Except Err Unit)
    (osStat : String → Except Err Nat) :
    Option (Except Err AttrOut) :=
  match f.name.data with
  | [] => none
  | c :: _ =>
    if c = '.' then
      if f.name = ".description" then
        match getDescription f.artist f.album f.name with
        | .error e => some (.error e)
        | .ok dj => some (.ok { size := dj.length, mode := 0o444 })
      else
        if f.writers = 0 then
          match getSpecialFile f.artist f.album f.name with
          | .ok b => some (.ok { size := b.length, mode := 0o666 })
          | .error e => some (.error e)
        else some (.ok { size := (f.data.getD []).length, mode := 0o666 })
    else
      match gfp f.artist f.album f.name with
      | .error e => some (.error e)
      | .ok songPath =>
        match osOpen songPath with
        | .error e => some (.error e)
        | .ok _ =>
          match osStat songPath with
          | .error e => some (.error e)
          | .ok sz => some (.ok { size := sz, mode := 0o777 })

/-- The record the metadata store holds for song `s` under playlist `p`:
the composite of the three lookups performed by the `db.View` closure of
`GetPlaylistFilePath`. `none` means no record (no `Playlists` root, no
such playlist bucket, or no such song key). -/
def recordOf (db : MuLiDB) (p s : String) : Option StoredBytes :=
  match db.playlistsRoot with
  | none => none
  | some root =>
    match bucketLookup root p with
    | none => none
    | some pb => bucketGet pb s

/-- When no record exists, the `db.View` closure of `GetPlaylistFilePath`
returns one of its three lookup errors. -/
theorem playlistViewLookup_error_of_no_record (db : MuLiDB) (p s : String)
    (h : recordOf db p s = none) :
    ∃ e, playlistViewLookup db p s = .error e := by
  unfold recordOf at h
  unfold playlistViewLookup
  cases hroot : db.playlistsRoot with
  | none => exact ⟨_, rfl⟩
  | some root =>
    simp only [hroot] at h
    cases hpb : bucketLookup root p with
    | none =>
      simp only [hpb]
      exact ⟨_, rfl⟩
    | some pb =>
      simp only [hpb] at h
      simp only [hpb, h]
      exact ⟨_, rfl⟩

/-- C1: if the metadata store holds a record for song `s` under playlist
`p` whose deserialized value carries path `P`, then
`GetPlaylistFilePath(p, s, m)` returns `P` with no error — for every
`stat` behaviour, in particular whether or not a file exists at the
conventional fallback location `<m>/playlists/<p>/<s>`. -/
theorem c1_recorded_path_wins (p s m : String) (db : MuLiDB)
    (stat : String → Option FStat)
    (root : List (String × PlaylistBucket)) (pb : PlaylistBucket)
    (bytes : StoredBytes) (P : String)
    (hroot : db.playlistsRoot = some root)
    (hpb : bucketLookup root p = some pb)
    (hget : bucketGet pb s = some bytes)
    (hum : unmarshalPlaylistFile bytes = some P) :
    GetPlaylistFilePath p s m none db stat = some (.ok P) := by
  simp [GetPlaylistFilePath, playlistViewLookup, hroot, hpb, hget, hum]

/-- Witness for C1: a concrete store holding
`Playlists/p/s ↦ {"path": "/music/a.mp3"}` resolves to `/music/a.mp3`
even though `stat` reports an ordinary file at every path, so the
fallback location also exists. -/
theorem c1_witness :
    GetPlaylistFilePath "p" "s" "/m" none
      (MuLiDB.mk (some [("p", [("s", some (.validRecord "/music/a.mp3"))])]))
      (fun _ => some (FStat.mk false)) = some (.ok "/music/a.mp3") :=
  c1_recorded_path_wins "p" "s" "/m" _ _
    [("p", [("s", some (.validRecord "/music/a.mp3"))])]
    [("s", some (.validRecord "/music/a.mp3"))]
    (.validRecord "/music/a.mp3") "/music/a.mp3"
    rfl (by decide) (by decide) rfl

/-- Counterexample to C2: with the concrete store holding malformed bytes
at `Playlists/p/s` and a `stat` reporting an ordinary file at every path,
`GetPlaylistFilePath` returns the fallback path `/m/playlists/p/s` with
no error — a success, not the "entry unreadable" failure the claim
requires, so the deserialization failure is silently ignored and
resolution does fall back to the conventional on-disk path. -/
theorem c2_counterexample :
    GetPlaylistFilePath "p" "s" "/m" none
        (MuLiDB.mk (some [("p", [("s", some (.malformed "xx"))])]))
        (fun _ => some (FStat.mk false)) =
      some (.ok "/m/playlists/p/s") ∧
    (Except.ok "/m/playlists/p/s" : Except Err String) ≠
      .error (.msg "Cannot open song.") := by
  constructor
  · rfl
  · simp

/-- C2 as amended: when the record for `s` under `p` exists but its bytes
fail to deserialize, the `db.View` error is swallowed and resolution
falls back to the conventional path exactly as if no record existed: it
returns `<m>/playlists/<p>/<s>` when `stat` reports a non-directory
there, and otherwise fails with the NotFound error "File not exists.";
the "Cannot open song." deserialization error never reaches the caller. -/
theorem c2_amended_malformed_falls_back (p s m : String) (db : MuLiDB)
    (stat : String → Option FStat)
    (root : List (String × PlaylistBucket)) (pb : PlaylistBucket)
    (bytes : StoredBytes)
    (hm : m ≠ "")
    (hroot : db.playlistsRoot = some root)
    (hpb : bucketLookup root p = some pb)
    (hget : bucketGet pb s = some bytes)
    (hum : unmarshalPlaylistFile bytes = none) :
    GetPlaylistFilePath p s m none db stat =
      some (match stat (normSlash m ++ "playlists/" ++ p ++ "/" ++ s) with
            | none => .error (.msg "File not exists.")
            | some fi =>
              if fi.isDir then .error (.msg "File not exists.")
              else .ok (normSlash m ++ "playlists/" ++ p ++ "/" ++ s)) := by
  simp only [GetPlaylistFilePath, playlistViewLookup, hroot, hpb, hget, hum,
    hm, if_false]
  cases stat (normSlash m ++ "playlists/" ++ p ++ "/" ++ s) with
  | none => rfl
  | some fi => cases h : fi.isDir <;> simp [h]

/-- Witness for the amended C2: a malformed record with no file at the
fallback location yields the NotFound error, not the deserialization
error. -/
theorem c2_amended_witness :
    GetPlaylistFilePath "p" "s" "/m" none
        (MuLiDB.mk (some [("p", [("s", some (.malformed "xx"))])]))
        (fun _ => none) =
      some (.error (.msg "File not exists.")) :=
  c2_amended_malformed_falls_back "p" "s" "/m" _ _
    [("p", [("s", some (.malformed "xx"))])]
    [("s", some (.malformed "xx"))] (.malformed "xx")
    (by decide) rfl (by decide) (by decide) rfl

/-- C3: with no record for `s` under `p` in the metadata store and a
non-empty mount root `m`, `GetPlaylistFilePath(p, s, m)` returns the
fallback path `<m>/playlists/<p>/<s>` (with the trailing slash of `m`
normalized first) iff `stat` reports a non-directory file there, and
otherwise fails with the NotFound error "File not exists.". -/
theorem c3_fallback_iff_file (p s m : String) (db : MuLiDB)
    (stat : String → Option FStat)
    (hm : m ≠ "") (hnr : recordOf db p s = none) :
    (GetPlaylistFilePath p s m none db stat =
        some (.ok (normSlash m ++ "playlists/" ++ p ++ "/" ++ s)) ↔
      (∃ fi, stat (normSlash m ++ "playlists/" ++ p ++ "/" ++ s) = some fi ∧
        fi.isDir = false)) ∧
    ((∀ fi, stat (normSlash m ++ "playlists/" ++ p ++ "/" ++ s) = some fi →
        fi.isDir = true) →
      GetPlaylistFilePath p s m none db stat =
        some (.error (.msg "File not exists."))) := by
  obtain ⟨e, he⟩ := playlistViewLookup_error_of_no_record db p s hnr
  simp only [GetPlaylistFilePath, he, hm, if_false]
  cases hst : stat (normSlash m ++ "playlists/" ++ p ++ "/" ++ s) with
  | none =>
    constructor
    · simp
    · intro _; rfl
  | some fi =>
    cases hd : fi.isDir with
    | false =>
      constructor
      · simp [hd]
      · intro hall
        exact absurd (hall fi rfl) (by simp [hd])
    | true =>
      constructor
      · simp [hd]
      · intro _; simp [hd]

/-- Witness for C3: with an empty store and `stat` reporting a
non-directory at every path, resolution returns the fallback path; the
non-directory existence condition is exhibited concretely. -/
theorem c3_witness :
    (GetPlaylistFilePath "p" "s" "/m" none (MuLiDB.mk none)
        (fun _ => some (FStat.mk false)) =
      some (.ok "/m/playlists/p/s")) ∧
    (GetPlaylistFilePath "p" "s" "/m" none (MuLiDB.mk none)
        (fun _ => none) =
      some (.error (.msg "File not exists."))) := by
  constructor
  · exact (c3_fallback_iff_file "p" "s" "/m" (MuLiDB.mk none)
      (fun _ => some (FStat.mk false)) (by decide) rfl).1.mpr
      ⟨FStat.mk false, rfl, rfl⟩
  · exact (c3_fallback_iff_file "p" "s" "/m" (MuLiDB.mk none)
      (fun _ => none) (by decide) rfl).2 (fun fi h => by cases h)

/-- Counterexample to C4: Flush on the concrete no-descriptor handle of a
`.description` node returns `fuse.EIO`, not the no-op success the claim
requires — file.go lines 300-303 return EIO for every nil descriptor
with no `.description` special case. -/
theorem c4_counterexample :
    Flush (FileHandle.mk false (some (File.mk "a" "b" "" ".description" "/m" 0 none))) =
      (.error .eio, []) ∧
    (Except.error Err.eio : Except Err Unit) ≠ .ok () := by
  constructor
  · rfl
  · simp

/-- C4 as amended: Flush on a handle holding a real descriptor invokes
`Sync` on it and succeeds (the Sync result is discarded), and Flush on
any handle with no descriptor — including one for a `.description`
node — returns the I/O error `fuse.EIO`. -/
theorem c4_amended_flush (fh : FileHandle) :
    (fh.r = true → Flush fh = (.ok (), [.syncFd])) ∧
    (fh.r = false → Flush fh = (.error .eio, [])) := by
  constructor <;> intro h <;> simp [Flush, h]

/-- Witness for the amended C4: both branches at concrete handles. -/
theorem c4_witness :
    Flush (FileHandle.mk true none) = (.ok (), [.syncFd]) ∧
    Flush (FileHandle.mk false none) = (.error .eio, []) :=
  ⟨(c4_amended_flush (FileHandle.mk true none)).1 rfl,
   (c4_amended_flush (FileHandle.mk false none)).2 rfl⟩

/-- C5: Release of a handle with a real descriptor on a drop-area node
(artist field `"drop"`) produces exactly the trace
`[closeFd, handleDrop <mountRoot>/drop/<name>]`: the descriptor is closed
first, then drop ingestion runs on the dropped file's path, and nothing
afterwards touches the descriptor again; when ingestion fails its error
is the Release result (otherwise the Close result is returned). -/
theorem c5_drop_release (f : File) (readOnly : Bool) (closeRes : Option Err)
    (dropRes : String → Option Err)
    (gfp : String → String → String → Except Err String)
    (hart : f.artist = "drop") (hmp : f.mPoint ≠ "") :
    Release (FileHandle.mk true (some f)) readOnly closeRes dropRes gfp =
      some (some f,
        (match dropRes (normSlash f.mPoint ++ "drop/" ++ f.name) with
         | some e => some e
         | none => closeRes),
        [.closeFd, .handleDrop (normSlash f.mPoint ++ "drop/" ++ f.name)]) := by
  simp only [Release, hart, hmp, if_false, Bool.true_eq_false, if_true]
  cases dropRes (normSlash f.mPoint ++ "drop/" ++ f.name) <;> simp

/-- Witness for C5: a concrete drop-area file whose ingestion fails with
`msg "ingest failed"`; Release reports that error after having closed the
descriptor. -/
theorem c5_witness :
    Release (FileHandle.mk true (some (File.mk "drop" "" "" "song.mp3" "/m" 0 none)))
        false none (fun _ => some (.msg "ingest failed"))
        (fun _ _ _ => .ok "") =
      some (some (File.mk "drop" "" "" "song.mp3" "/m" 0 none),
        some (.msg "ingest failed"),
        [.closeFd, .handleDrop "/m/drop/song.mp3"]) :=
  c5_drop_release (File.mk "drop" "" "" "song.mp3" "/m" 0 none)
    false none (fun _ => some (.msg "ingest failed"))
    (fun _ _ _ => .ok "") rfl (by decide)

/-- The reserved `.description` name is not a Mac special-file name. -/
theorem isSpecialName_description : isSpecialName ".description" = false := by
  decide

/-- C6: on a node whose name passes the special-file test (names starting
with `._`, or exactly `.DS_Store`), Release of a no-descriptor handle
behaves as: a read-only handle changes neither the writer count nor the
buffer; a write-capable handle decrements the positive count and discards
the buffer exactly when the count reaches zero. In particular from two
writers with a live buffer, one write-capable Release leaves count one
with the buffer intact, and releasing the second leaves count zero with
the buffer discarded. -/
theorem c6_special_release (f : File) (buf : List Nat) (closeRes : Option Err)
    (dropRes : String → Option Err)
    (gfp : String → String → String → Except Err String)
    (hs : isSpecialName f.name = true) :
    (Release (FileHandle.mk false (some f)) true closeRes dropRes gfp =
        some (some f, none, [])) ∧
    (∀ w, f.writers = w + 1 →
      Release (FileHandle.mk false (some f)) false closeRes dropRes gfp =
        some (some { f with writers := w,
                            data := if w = 0 then none else f.data },
              none, [])) ∧
    (f.writers = 2 → f.data = some buf →
      Release (FileHandle.mk false (some f)) false closeRes dropRes gfp =
        some (some { f with writers := 1 }, none, []) ∧
      ({ f with writers := 1 } : File).writers = 1 ∧
      ({ f with writers := 1 } : File).data = some buf ∧
      Release (FileHandle.mk false (some { f with writers := 1 }))
          false closeRes dropRes gfp =
        some (some { f with writers := 0, data := none }, none, [])) := by
  have hdesc : f.name ≠ ".description" := by
    intro h
    rw [h, isSpecialName_description] at hs
    exact Bool.false_ne_true hs
  refine ⟨?_, ?_, ?_⟩
  · simp [Release, hdesc, hs]
  · intro w hw
    simp [Release, hdesc, hs, decUint, hw]
  · intro hw hd
    refine ⟨?_, rfl, by simp [hd], ?_⟩
    · have := hw
      simp [Release, hdesc, hs, decUint, hw]
    · simp [Release, hdesc, hs, decUint]

/-- Witness for C6: the concrete node `.DS_Store` with two writers and
buffer `[1, 2, 3]`; after one write-capable Release the count is one and
the buffer intact, after the second the count is zero and the buffer
discarded, while a read-only Release changes nothing. -/
theorem c6_witness :
    (Release (FileHandle.mk false (some (File.mk "a" "b" "" ".DS_Store" "/m" 2 (some [1, 2, 3]))))
        true none (fun _ => none) (fun _ _ _ => .ok "") =
      some (some (File.mk "a" "b" "" ".DS_Store" "/m" 2 (some [1, 2, 3])), none, [])) ∧
    (Release (FileHandle.mk false (some (File.mk "a" "b" "" ".DS_Store" "/m" 2 (some [1, 2, 3]))))
        false none (fun _ => none) (fun _ _ _ => .ok "") =
      some (some (File.mk "a" "b" "" ".DS_Store" "/m" 1 (some [1, 2, 3])), none, [])) ∧
    (Release (FileHandle.mk false (some (File.mk "a" "b" "" ".DS_Store" "/m" 1 (some [1, 2, 3]))))
        false none (fun _ => none) (fun _ _ _ => .ok "") =
      some (some (File.mk "a" "b" "" ".DS_Store" "/m" 0 none), none, [])) := by
  have h := c6_special_release
    (File.mk "a" "b" "" ".DS_Store" "/m" 2 (some [1, 2, 3])) [1, 2, 3]
    none (fun _ => none) (fun _ _ _ => .ok "") (by decide)
  exact ⟨h.1, (h.2.2 rfl rfl).1, (h.2.2 rfl rfl).2.2.2⟩

/-- C7: `ListPlaylistSongs(p, m)` on a store whose `Playlists` root holds
a bucket `pb` for `p` with sorted keys (bolt iterates in key order, which
the sortedness hypothesis reflects) returns first one file entry per key
of `pb` with a non-nil value, in that sorted order, followed by one file
entry per non-directory entry of the on-disk directory
`<m>/playlists/<p>/`; no de-duplication happens, so a name appearing in
both parts is listed at least twice. -/
theorem c7_list_playlist_songs (p m : String) (db : MuLiDB)
    (readDir : String → List DiskEntry)
    (root : List (String × PlaylistBucket)) (pb : PlaylistBucket)
    (hm : m ≠ "") (hroot : db.playlistsRoot = some root)
    (hpb : bucketLookup root p = some pb)
    (hsorted : (pb.map Prod.fst).Pairwise (fun a b => a.data < b.data)) :
    (ListPlaylistSongs p m none db readDir =
      some (.ok
        ((pb.filter (fun kv => kv.2.isSome)).map
            (fun kv => Dirent.mk kv.1 .dtFile) ++
          ((readDir (normSlash m ++ "playlists/" ++ p ++ "/")).filter
              (fun e => !e.isDir)).map
            (fun e => Dirent.mk e.name .dtFile)))) ∧
    ((((pb.filter (fun kv => kv.2.isSome)).map
        (fun kv => Dirent.mk kv.1 .dtFile)).map Dirent.name).Pairwise
      (fun a b => a.data < b.data)) ∧
    (∀ n,
      n ∈ ((pb.filter (fun kv => kv.2.isSome)).map
            (fun kv => Dirent.mk kv.1 .dtFile)).map Dirent.name →
      n ∈ (((readDir (normSlash m ++ "playlists/" ++ p ++ "/")).filter
            (fun e => !e.isDir)).map
            (fun e => Dirent.mk e.name .dtFile)).map Dirent.name →
      2 ≤ ((((pb.filter (fun kv => kv.2.isSome)).map
              (fun kv => Dirent.mk kv.1 .dtFile) ++
            ((readDir (normSlash m ++ "playlists/" ++ p ++ "/")).filter
                (fun e => !e.isDir)).map
              (fun e => Dirent.mk e.name .dtFile)).map Dirent.name).count n)) := by
  refine ⟨?_, ?_, ?_⟩
  · simp only [ListPlaylistSongs, hroot, hpb, hm, if_false]
  · have hsub : List.Sublist ((pb.filter (fun kv => kv.2.isSome)).map Prod.fst)
        (pb.map Prod.fst) := (List.filter_sublist pb).map Prod.fst
    have : (((pb.filter (fun kv => kv.2.isSome)).map
        (fun kv => Dirent.mk kv.1 .dtFile)).map Dirent.name) =
        (pb.filter (fun kv => kv.2.isSome)).map Prod.fst := by
      simp [List.map_map, Function.comp]
    rw [this]
    exact hsorted.sublist hsub
  · intro n hdb hdisk
    rw [List.map_append, List.count_append]
    have h1 : 0 < (((pb.filter (fun kv => kv.2.isSome)).map
        (fun kv => Dirent.mk kv.1 .dtFile)).map Dirent.name).count n :=
      List.count_pos_iff.mpr hdb
    have h2 : 0 < ((((readDir (normSlash m ++ "playlists/" ++ p ++ "/")).filter
        (fun e => !e.isDir)).map
        (fun e => Dirent.mk e.name .dtFile)).map Dirent.name).count n :=
      List.count_pos_iff.mpr hdisk
    omega

/-- Witness for C7: playlist `p` holds records for songs `a` and `s` in
the store, and the on-disk directory holds files `s` and `z` plus a
sub-directory; the listing is the sorted store part followed by the disk
part, and the doubly-present `s` is listed twice. -/
theorem c7_witness :
    (ListPlaylistSongs "p" "/m" none
      (MuLiDB.mk (some [("p",
        [("a", some (.validRecord "/x/a")), ("s", some (.validRecord "/x/s"))])]))
      (fun _ => [DiskEntry.mk "s" false, DiskEntry.mk "sub" true,
                 DiskEntry.mk "z" false]) =
      some (.ok [Dirent.mk "a" .dtFile, Dirent.mk "s" .dtFile,
                 Dirent.mk "s" .dtFile, Dirent.mk "z" .dtFile])) ∧
    2 ≤ ([Dirent.mk "a" .dtFile, Dirent.mk "s" .dtFile,
          Dirent.mk "s" .dtFile, Dirent.mk "z" .dtFile].map Dirent.name).count "s" := by
  have h := c7_list_playlist_songs "p" "/m"
    (MuLiDB.mk (some [("p",
      [("a", some (.validRecord "/x/a")), ("s", some (.validRecord "/x/s"))])]))
    (fun _ => [DiskEntry.mk "s" false, DiskEntry.mk "sub" true,
               DiskEntry.mk "z" false])
    [("p", [("a", some (.validRecord "/x/a")), ("s", some (.validRecord "/x/s"))])]
    [("a", some (.validRecord "/x/a")), ("s", some (.validRecord "/x/s"))]
    (by decide) rfl (by decide) (by decide)
  refine ⟨?_, ?_⟩
  · exact h.1
  · decide

/-- C8: `File.Open` on any name beginning with `.` other than the exact
name `.description` fails with `fuse.EPERM` and produces no handle, while
`File.Open` on `.description` succeeds with a handle holding no real
descriptor — whatever the resolver and the OS open would have answered. -/
theorem c8_open_dotfiles (f : File)
    (gfp : String → String → String → Except Err String)
    (osOpen : String → Except Err Unit) :
    (f.name.data.head? = some '.' → f.name ≠ ".description" →
      File.Open f gfp osOpen = some (.error .eperm)) ∧
    (f.name = ".description" →
      File.Open f gfp osOpen = some (.ok (FileHandle.mk false (some f)))) := by
  constructor
  · intro hdot hne
    unfold File.Open
    cases hname : f.name.data with
    | nil => rw [hname] at hdot; cases hdot
    | cons c rest =>
      rw [hname] at hdot
      simp only [List.head?] at hdot
      have hc : c = '.' := by injection hdot
      simp [hne, hname, hc]
  · intro hd
    unfold File.Open
    simp [hd]

/-- Witness for C8: the dotfile `.hidden` is rejected with EPERM, and
`.description` yields a descriptorless handle, under a resolver and an
OS open that would both succeed. -/
theorem c8_witness :
    (File.Open (File.mk "a" "b" "" ".hidden" "/m" 0 none)
        (fun _ _ _ => .ok "/x") (fun _ => .ok ()) =
      some (.error .eperm)) ∧
    (File.Open (File.mk "a" "b" "" ".description" "/m" 0 none)
        (fun _ _ _ => .ok "/x") (fun _ => .ok ()) =
      some (.ok (FileHandle.mk false
        (some (File.mk "a" "b" "" ".description" "/m" 0 none))))) :=
  ⟨(c8_open_dotfiles (File.mk "a" "b" "" ".hidden" "/m" 0 none)
      (fun _ _ _ => .ok "/x") (fun _ => .ok ())).1 rfl (by decide),
   (c8_open_dotfiles (File.mk "a" "b" "" ".description" "/m" 0 none)
      (fun _ _ _ => .ok "/x") (fun _ => .ok ())).2 rfl⟩

/-- A `bucketLookup` succeeds exactly when the key occurs among the
stored keys. -/
theorem bucketLookup_isSome_iff {α : Type} (l : List (String × α))
    (k : String) : (bucketLookup l k).isSome ↔ k ∈ l.map Prod.fst := by
  induction l with
  | nil => simp [bucketLookup]
  | cons hd tl ih =>
    by_cases h : hd.1 = k
    · simp [bucketLookup, h]
    · simp only [bucketLookup, h, if_false, List.map_cons, List.mem_cons]
      rw [ih]
      constructor
      · exact Or.inr
      · rintro (h1 | h2)
        · exact absurd h1.symm h
        · exact h2

/-- Keys after `createBucketIfNotExists`: the new name occurs exactly
once when the original keys were duplicate-free. -/
theorem count_createBucketIfNotExists
    (root : List (String × PlaylistBucket)) (n : String)
    (hnodup : (root.map Prod.fst).Nodup) :
    ((createBucketIfNotExists root n).map Prod.fst).count n = 1 := by
  unfold createBucketIfNotExists
  by_cases h : (bucketLookup root n).isSome = true
  · rw [if_pos h]
    have hmem : n ∈ root.map Prod.fst := (bucketLookup_isSome_iff root n).mp h
    exact List.count_eq_one_of_mem hnodup hmem
  · rw [if_neg h]
    have hmem : n ∉ root.map Prod.fst := by
      intro hc
      exact h ((bucketLookup_isSome_iff root n).mpr hc)
    rw [List.map_append, List.count_append]
    rw [List.count_eq_zero.mpr hmem]
    simp

/-- Ensuring the same bucket twice is the same as ensuring it once. -/
theorem createBucketIfNotExists_idem
    (root : List (String × PlaylistBucket)) (n : String) :
    createBucketIfNotExists (createBucketIfNotExists root n) n =
      createBucketIfNotExists root n := by
  by_cases h : (bucketLookup root n).isSome = true
  · have e1 : createBucketIfNotExists root n = root := by
      unfold createBucketIfNotExists
      rw [if_pos h]
    rw [e1]
    unfold createBucketIfNotExists
    rw [if_pos h]
  · have e1 : createBucketIfNotExists root n = root ++ [(n, [])] := by
      unfold createBucketIfNotExists
      rw [if_neg h]
    have h2 : (bucketLookup (root ++ [(n, [])]) n).isSome = true :=
      (bucketLookup_isSome_iff _ n).mpr (by simp)
    rw [e1]
    unfold createBucketIfNotExists
    rw [if_pos h2]

/-- C9: creating a playlist twice with the same raw name (hence the same
normalized name) is idempotent — after both successful calls the bucket
`Playlists/<normalized name>` exists exactly once (given bolt's invariant
that bucket keys are duplicate-free) and the second call succeeds with
the same normalized name; and whenever the store-level open or
transaction fails, the call returns that error with the external playlist
regeneration not invoked. -/
theorem c9_create_playlist_idempotent (name m : String) (db : MuLiDB)
    (e : Err)
    (hnodup : ((db.playlistsRoot.getD []).map Prod.fst).Nodup) :
    ((CreatePlaylist name m none none
        (CreatePlaylist name m none none db).1).2.1 =
      .ok (getCompatibleString name)) ∧
    ((((CreatePlaylist name m none none
        (CreatePlaylist name m none none db).1).1.playlistsRoot.getD []).map
        Prod.fst).count (getCompatibleString name) = 1) ∧
    ((CreatePlaylist name m (some e) none db).2.1 = .error e ∧
      (CreatePlaylist name m (some e) none db).2.2 = false) ∧
    ((CreatePlaylist name m none (some e) db).2.1 = .error e ∧
      (CreatePlaylist name m none (some e) db).2.2 = false) := by
  refine ⟨by simp [CreatePlaylist], ?_, ⟨rfl, rfl⟩, ⟨rfl, rfl⟩⟩
  show ((createBucketIfNotExists
      (createBucketIfNotExists (db.playlistsRoot.getD [])
        (getCompatibleString name)) (getCompatibleString name)).map
      Prod.fst).count (getCompatibleString name) = 1
  rw [createBucketIfNotExists_idem]
  exact count_createBucketIfNotExists (db.playlistsRoot.getD [])
    (getCompatibleString name) hnodup

/-- Witness for C9: creating `"My Mix "` twice over the empty store
leaves exactly one `Playlists/My_Mix` bucket and the second call returns
`My_Mix`; an injected store failure is returned with regeneration not
run. -/
theorem c9_witness :
    ((CreatePlaylist "My Mix " "/m" none none
        (CreatePlaylist "My Mix " "/m" none none (MuLiDB.mk none)).1).2.1 =
      .ok "My_Mix") ∧
    ((((CreatePlaylist "My Mix " "/m" none none
        (CreatePlaylist "My Mix " "/m" none none (MuLiDB.mk none)).1).1.playlistsRoot.getD
        []).map Prod.fst).count "My_Mix" = 1) ∧
    ((CreatePlaylist "My Mix " "/m" (some .eio) none (MuLiDB.mk none)).2.2 =
      false) := by
  have h := c9_create_playlist_idempotent "My Mix " "/m" (MuLiDB.mk none)
    .eio (by decide)
  have hn : getCompatibleString "My Mix " = "My_Mix" := by decide
  exact ⟨by rw [h.1, hn], by rw [← hn]; exact h.2.1, h.2.2.1.2⟩

/-- C10: a `File` node with an empty name makes both `File.Attr` and
`File.Open` panic with an index-out-of-range on `f.name[0]` (in `Attr`
the index is the very first test; in `Open` it is reached because the
empty name fails the preceding `.description` comparison), and with a
non-empty name both operations are total — they return some result for
every collaborator behaviour. -/
theorem c10_empty_name_panics (f : File)
    (getDescription : String → String → String → Except Err String)
    (getSpecialFile : String → String → String → Except Err (List Nat))
    (gfp : String → String → String → Except Err String)
    (osOpen : String → Except Err Unit)
    (osStat : String → Except Err Nat) :
    (f.name = "" →
      File.Attr f getDescription getSpecialFile gfp osOpen osStat = none ∧
      File.Open f gfp osOpen = none) ∧
    (f.name ≠ "" →
      (File.Attr f getDescription getSpecialFile gfp osOpen osStat).isSome ∧
      (File.Open f gfp osOpen).isSome) := by
  constructor
  · intro h
    have hdata : f.name.data = [] := by rw [h]
    have hne : f.name ≠ ".description" := by rw [h]; decide
    constructor
    · unfold File.Attr
      simp only [hdata]
    · unfold File.Open
      simp only [hne, if_false, hdata]
  · intro h
    have hdata : f.name.data ≠ [] := by
      intro hc
      exact h (String.ext hc)
    cases hd : f.name.data with
    | nil => exact absurd hd hdata
    | cons c rest =>
      constructor
      · unfold File.Attr
        simp only [hd]
        split
        · split
          · cases getDescription f.artist f.album f.name <;> simp
          · split
            · cases getSpecialFile f.artist f.album f.name <;> simp
            · simp
        · cases gfp f.artist f.album f.name with
          | error e => simp
          | ok sp =>
            simp only
            cases osOpen sp with
            | error e => simp
            | ok u =>
              simp only
              cases osStat sp <;> simp
      · unfold File.Open
        split
        · simp
        · simp only [hd]
          split
          · simp
          · cases gfp f.artist f.album f.name with
            | error e => simp
            | ok sp =>
              simp only
              cases osOpen sp <;> simp

/-- Witness for C10: the empty-named node panics in both operations,
while the node named `s.mp3` returns a result in both, with collaborators
that always succeed. -/
theorem c10_witness :
    (File.Attr (File.mk "a" "b" "" "" "/m" 0 none)
        (fun _ _ _ => .ok "d") (fun _ _ _ => .ok [])
        (fun _ _ _ => .ok "/x") (fun _ => .ok ()) (fun _ => .ok 7) = none) ∧
    (File.Open (File.mk "a" "b" "" "" "/m" 0 none)
        (fun _ _ _ => .ok "/x") (fun _ => .ok ()) = none) ∧
    ((File.Attr (File.mk "a" "b" "" "s.mp3" "/m" 0 none)
        (fun _ _ _ => .ok "d") (fun _ _ _ => .ok [])
        (fun _ _ _ => .ok "/x") (fun _ => .ok ()) (fun _ => .ok 7)).isSome) := by
  have h1 := c10_empty_name_panics (File.mk "a" "b" "" "" "/m" 0 none)
    (fun _ _ _ => .ok "d") (fun _ _ _ => .ok [])
    (fun _ _ _ => .ok "/x") (fun _ => .ok ()) (fun _ => .ok 7)
  have h2 := c10_empty_name_panics (File.mk "a" "b" "" "s.mp3" "/m" 0 none)
    (fun _ _ _ => .ok "d") (fun _ _ _ => .ok [])
    (fun _ _ _ => .ok "/x") (fun _ => .ok ()) (fun _ => .ok 7)
  exact ⟨(h1.1 rfl).1, (h1.1 rfl).2, (h2.2 (by decide)).1⟩

end MuLiFS
